import Mathlib

/-!
Verification development for the AiSEG2 dashboard (server.js + aiseg2.js).

The JavaScript source is shallowly embedded: network I/O is abstracted as
explicit function parameters (a pure `fetch : Request → Response` for the
digest transport, per-page / per-circuit result oracles elsewhere), JS
numbers are modelled as exact rationals (`ℚ`; the source never does
arithmetic that would make double rounding observable at the granularity of
the claims), JS values flowing through untyped code are modelled by the
`JsVal` inductive (JSON values plus `undefined`), and exceptions are
modelled with `Option`/`Except`.  All scanners that mirror JavaScript
regular expressions are written as fuel-based structural recursions so that
concrete runs reduce definitionally.
-/

set_option maxRecDepth 100000

namespace Aiseg

/-! ## Generic character/string utilities -/

/-- Left brace character, kept out of character literals. -/
def lbrace : Char := Char.ofNat 123

/-- Right brace character. -/
def rbrace : Char := Char.ofNat 125

/-- Index of the first occurrence of a character, `-1` when absent:
models JavaScript `String.prototype.indexOf` for a single character. -/
def indexOfChars : List Char → Char → Int
  | [], _ => -1
  | c :: r, t =>
    if c = t then 0
    else
      let i := indexOfChars r t
      if i < 0 then -1 else i + 1

/-- Index of the last occurrence of a character, `-1` when absent:
models JavaScript `String.prototype.lastIndexOf` for a single character. -/
def lastIndexOfChars (cs : List Char) (t : Char) : Int :=
  let j := indexOfChars cs.reverse t
  if j < 0 then -1 else (cs.length : Int) - 1 - j

/-- `s.slice(a, b)` for the in-range, non-negative indices the source uses. -/
def strSlice (s : String) (a b : Int) : String :=
  String.mk ((s.data.take b.toNat).drop a.toNat)

/-- JavaScript `String.prototype.trim` (written over the character list so
that it reduces definitionally; `String.trim`'s byte-position recursion does
not). -/
def jsTrim (s : String) : String :=
  String.mk (((s.data.dropWhile Char.isWhitespace).reverse.dropWhile
    Char.isWhitespace).reverse)

/-- Splits `cs` at the first occurrence of the substring `pat`:
`some (before, after)` with `before ++ pat ++ after = cs`, `none` when `pat`
does not occur.  Fueled structural recursion. -/
def splitOnSub : Nat → List Char → List Char → Option (List Char × List Char)
  | 0, _, _ => none
  | f + 1, pat, cs =>
    if List.isPrefixOf pat cs then some ([], cs.drop pat.length)
    else
      match cs with
      | [] => none
      | c :: r =>
        match splitOnSub f pat r with
        | some (b, a) => some (c :: b, a)
        | none => none

/-- JavaScript `String.prototype.includes`. -/
def strIncludes (s pat : String) : Bool :=
  (splitOnSub (s.length + 1) pat.data s.data).isSome

/-- JavaScript `str.replace(',', '')` with a string pattern: removes only the
FIRST comma. -/
def removeFirstComma : List Char → List Char
  | [] => []
  | ',' :: r => r
  | c :: r => c :: removeFirstComma r

/-- Numeric value of a digit string (most significant first). -/
def digitsVal (ds : List Char) : Nat :=
  ds.foldl (fun a c => 10 * a + (c.toNat - 48)) 0

/-- Value of a fractional digit block: `fracVal ['2','5'] = 0.25`. -/
def fracVal (fs : List Char) : ℚ :=
  (digitsVal fs : ℚ) / (10 ^ fs.length)

/-! ## JavaScript number parsing

`parseFloatChars` models `parseFloat` (longest numeric prefix, `none` for
NaN); `numberOfString` models `Number(string)` (whole-string parse, empty
string is 0).  The special values `Infinity` and hexadecimal string forms
are not modelled: none of the embedded code paths feed them in. -/

/-- Optional exponent suffix; unconsumed when no digits follow the marker,
mirroring `parseFloat("1e") = 1`. -/
def parseExpPart (q : ℚ) (cs : List Char) : ℚ × List Char :=
  match cs with
  | 'e' :: r | 'E' :: r =>
    let (pos, r2) : Bool × List Char :=
      match r with
      | '+' :: rr => (true, rr)
      | '-' :: rr => (false, rr)
      | _ => (true, r)
    let ds := r2.takeWhile Char.isDigit
    if ds.isEmpty then (q, cs)
    else
      let e := digitsVal ds
      (if pos then q * 10 ^ e else q / 10 ^ e, r2.drop ds.length)
  | _ => (q, cs)

/-- Unsigned magnitude part of a `parseFloat`-style parse. -/
def parseMagnitude (cs : List Char) : Option (ℚ × List Char) :=
  let ds := cs.takeWhile Char.isDigit
  let r1 := cs.drop ds.length
  match ds, r1 with
  | [], '.' :: r2 =>
    let fs := r2.takeWhile Char.isDigit
    if fs.isEmpty then none
    else some (parseExpPart (fracVal fs) (r2.drop fs.length))
  | [], _ => none
  | _, '.' :: r2 =>
    let fs := r2.takeWhile Char.isDigit
    some (parseExpPart ((digitsVal ds : ℚ) + fracVal fs) (r2.drop fs.length))
  | _, _ => some (parseExpPart (digitsVal ds : ℚ) r1)

/-- Signed `parseFloat`-style parse returning the remainder. -/
def parseSigned (cs : List Char) : Option (ℚ × List Char) :=
  match cs with
  | '-' :: r => (parseMagnitude r).map (fun p => (-p.1, p.2))
  | '+' :: r => parseMagnitude r
  | _ => parseMagnitude cs

/-- JavaScript `parseFloat` on a character list; `none` models NaN. -/
def parseFloatChars (cs : List Char) : Option ℚ :=
  (parseSigned (cs.dropWhile Char.isWhitespace)).map (fun p => p.1)

/-- JavaScript `Number(string)`; `none` models NaN. -/
def numberOfString (s : String) : Option ℚ :=
  let cs := (s.data.dropWhile Char.isWhitespace).reverse.dropWhile Char.isWhitespace
  let cs := cs.reverse
  if cs.isEmpty then some 0
  else
    match parseSigned cs with
    | some (q, []) => some q
    | _ => none

/-! ## JavaScript value model -/

/-- JavaScript values reachable in the embedded code: JSON values plus
`undefined`.  Numbers are exact rationals. -/
inductive JsVal where
  | null : JsVal
  | undef : JsVal
  | bool : Bool → JsVal
  | num : ℚ → JsVal
  | str : String → JsVal
  | arr : List JsVal → JsVal
  | obj : List (String × JsVal) → JsVal

/-- Digits of the fractional expansion of `r / d` (long division), used by
the number printer. -/
def fracDigitsAux : Nat → Nat → Nat → List Char
  | 0, _, _ => []
  | f + 1, r, d =>
    if r = 0 then []
    else
      let r10 := r * 10
      Char.ofNat (48 + r10 / d) :: fracDigitsAux f (r10 % d) d

/-- JavaScript number-to-string conversion.  Exact for integers and for
denominators dividing a power of ten (the only numbers the embedded data
contains); other rationals are printed to 40 fractional digits, an
approximation of the double shortest-round-trip printing. -/
def ratToJsString (q : ℚ) : String :=
  if q.den = 1 then toString q.num
  else
    let sgn := if q.num < 0 then "-" else ""
    let n := q.num.natAbs
    sgn ++ toString (n / q.den) ++ "." ++ String.mk (fracDigitsAux 40 (n % q.den) q.den)

/-- JavaScript `String(v)` / template-literal conversion.  The fuel bounds
array nesting; array elements `null`/`undefined` print as empty, as in JS. -/
def jsToStringFuel : Nat → JsVal → String
  | _, JsVal.str s => s
  | _, JsVal.num q => ratToJsString q
  | _, JsVal.bool b => if b then "true" else "false"
  | _, JsVal.null => "null"
  | _, JsVal.undef => "undefined"
  | _, JsVal.obj _ => "[object Object]"
  | 0, JsVal.arr _ => ""
  | f + 1, JsVal.arr xs =>
    String.intercalate "," (xs.map (fun x =>
      match x with
      | JsVal.null => ""
      | JsVal.undef => ""
      | y => jsToStringFuel f y))

/-- JavaScript `String(v)`. -/
def jsToString (v : JsVal) : String := jsToStringFuel 1000000 v

/-- JavaScript truthiness. -/
def truthy : JsVal → Bool
  | JsVal.null => false
  | JsVal.undef => false
  | JsVal.bool b => b
  | JsVal.num q => q != 0
  | JsVal.str s => !s.isEmpty
  | JsVal.arr _ => true
  | JsVal.obj _ => true

/-- Property read `v.k`: `undefined` when absent or when `v` is not an
object (the null/undefined TypeError cases are handled at each use site).
Duplicate keys follow JS object semantics: the last binding wins. -/
def getField (v : JsVal) (k : String) : JsVal :=
  match v with
  | JsVal.obj kvs =>
    match (kvs.filter (fun p => p.1 = k)).getLast? with
    | some p => p.2
    | none => JsVal.undef
  | _ => JsVal.undef

/-- Strict equality `v === (n : number)`. -/
def strictEqNum (v : JsVal) (n : ℚ) : Bool :=
  match v with
  | JsVal.num q => q == n
  | _ => false

/-- Strict equality `v === (s : string)`. -/
def strictEqStr (v : JsVal) (s : String) : Bool :=
  match v with
  | JsVal.str t => t == s
  | _ => false

/-- JavaScript `parseFloat(v)`: the argument is converted to a string
first; `none` models NaN. -/
def jsParseFloat : JsVal → Option ℚ
  | JsVal.num q => some q
  | JsVal.str s => parseFloatChars s.data
  | JsVal.arr xs => parseFloatChars (jsToString (JsVal.arr xs)).data
  | _ => none

/-- JavaScript `ToNumber(v)`; `none` models NaN. -/
def jsToNumber : JsVal → Option ℚ
  | JsVal.num q => some q
  | JsVal.null => some 0
  | JsVal.bool b => some (if b then 1 else 0)
  | JsVal.undef => none
  | JsVal.str s => numberOfString s
  | JsVal.arr xs => numberOfString (jsToString (JsVal.arr xs))
  | JsVal.obj _ => none

/-- Nullish coalescing `v ?? dflt`. -/
def nullish (v dflt : JsVal) : JsVal :=
  match v with
  | JsVal.null => dflt
  | JsVal.undef => dflt
  | _ => v

/-! ## JSON parsing (models `JSON.parse`)

Recursive-descent parser over characters; nesting is bounded by fuel that
shrinks only at `parseVal`'s self-calls (passed as a closure into the
element/member loops) so everything is structurally recursive and reduces
definitionally.  Surrogate-pair recombination in `\u` escapes is not
modelled; numbers are exact rationals. -/

/-- JSON whitespace skip. -/
def skipWs (cs : List Char) : List Char :=
  cs.dropWhile (fun c => c = ' ' ∨ c = '\t' ∨ c = '\n' ∨ c = '\r')

/-- Value of a hexadecimal digit. -/
def hexVal (c : Char) : Option Nat :=
  if c.isDigit then some (c.toNat - 48)
  else if 'a' ≤ c ∧ c ≤ 'f' then some (c.toNat - 87)
  else if 'A' ≤ c ∧ c ≤ 'F' then some (c.toNat - 55)
  else none

/-- JSON string body after the opening quote; rejects unescaped control
characters and bad escapes the way `JSON.parse` does. -/
def parseJsonStringAux : Nat → List Char → List Char → Option (String × List Char)
  | 0, _, _ => none
  | f + 1, acc, cs =>
    match cs with
    | [] => none
    | '"' :: r => some (String.mk acc.reverse, r)
    | '\\' :: e :: r =>
      match e with
      | '"' => parseJsonStringAux f ('"' :: acc) r
      | '\\' => parseJsonStringAux f ('\\' :: acc) r
      | '/' => parseJsonStringAux f ('/' :: acc) r
      | 'b' => parseJsonStringAux f (Char.ofNat 8 :: acc) r
      | 'f' => parseJsonStringAux f (Char.ofNat 12 :: acc) r
      | 'n' => parseJsonStringAux f ('\n' :: acc) r
      | 'r' => parseJsonStringAux f ('\r' :: acc) r
      | 't' => parseJsonStringAux f ('\t' :: acc) r
      | 'u' =>
        match r with
        | h1 :: h2 :: h3 :: h4 :: r2 =>
          match hexVal h1, hexVal h2, hexVal h3, hexVal h4 with
          | some a, some b, some c, some d =>
            parseJsonStringAux f (Char.ofNat (((a * 16 + b) * 16 + c) * 16 + d) :: acc) r2
          | _, _, _, _ => none
        | _ => none
      | _ => none
    | '\\' :: [] => none
    | c :: r => if c.toNat < 32 then none else parseJsonStringAux f (c :: acc) r

/-- JSON number: fraction and exponent tail after the integer part. -/
def parseNumTail (neg : Bool) (ip : Nat) (cs : List Char) : Option (ℚ × List Char) :=
  let withExp : ℚ → List Char → Option (ℚ × List Char) := fun q cs2 =>
    match cs2 with
    | 'e' :: r | 'E' :: r =>
      let (pos, r2) : Bool × List Char :=
        match r with
        | '+' :: rr => (true, rr)
        | '-' :: rr => (false, rr)
        | _ => (true, r)
      let ds := r2.takeWhile Char.isDigit
      if ds.isEmpty then none
      else
        let e := digitsVal ds
        some (if pos then q * 10 ^ e else q / 10 ^ e, r2.drop ds.length)
    | _ => some (q, cs2)
  match cs with
  | '.' :: r =>
    let fs := r.takeWhile Char.isDigit
    if fs.isEmpty then none
    else
      (withExp ((ip : ℚ) + fracVal fs) (r.drop fs.length)).map
        (fun p => (if neg then -p.1 else p.1, p.2))
  | _ =>
    (withExp (ip : ℚ) cs).map (fun p => (if neg then -p.1 else p.1, p.2))

/-- JSON number from the first character on. -/
def parseJsonNumber (cs : List Char) : Option (ℚ × List Char) :=
  let (neg, cs1) : Bool × List Char :=
    match cs with
    | '-' :: r => (true, r)
    | _ => (false, cs)
  match cs1 with
  | '0' :: r => parseNumTail neg 0 r
  | c :: _ =>
    if c.isDigit then
      let ds := cs1.takeWhile Char.isDigit
      parseNumTail neg (digitsVal ds) (cs1.drop ds.length)
    else none
  | [] => none

/-- Array element loop; `pv` is the value parser one fuel level down. -/
def parseItemsAux (pv : List Char → Option (JsVal × List Char)) :
    Nat → List Char → Option (List JsVal × List Char)
  | 0, _ => none
  | f + 1, cs =>
    match pv cs with
    | none => none
    | some (v, r) =>
      match skipWs r with
      | ',' :: r2 =>
        match parseItemsAux pv f r2 with
        | some (vs, r3) => some (v :: vs, r3)
        | none => none
      | ']' :: r2 => some ([v], r2)
      | _ => none

/-- Object member loop; `pv` is the value parser one fuel level down. -/
def parseMembersAux (pv : List Char → Option (JsVal × List Char)) :
    Nat → List Char → Option (List (String × JsVal) × List Char)
  | 0, _ => none
  | f + 1, cs =>
    match skipWs cs with
    | '"' :: r =>
      match parseJsonStringAux (r.length + 1) [] r with
      | none => none
      | some (k, r2) =>
        match skipWs r2 with
        | ':' :: r3 =>
          match pv r3 with
          | none => none
          | some (v, r4) =>
            match skipWs r4 with
            | ',' :: r5 =>
              match parseMembersAux pv f r5 with
              | some (ms, r6) => some ((k, v) :: ms, r6)
              | none => none
            | c :: r5 =>
              if c = rbrace then some ([(k, v)], r5) else none
            | [] => none
        | _ => none
    | _ => none

/-- JSON value parser; fuel bounds nesting depth. -/
def parseVal : Nat → List Char → Option (JsVal × List Char)
  | 0, _ => none
  | f + 1, cs =>
    match skipWs cs with
    | [] => none
    | c :: r =>
      if c = lbrace then
        match skipWs r with
        | c2 :: r2 =>
          if c2 = rbrace then some (JsVal.obj [], r2)
          else
            match parseMembersAux (parseVal f) (r.length + 1) r with
            | some (ms, rest) => some (JsVal.obj ms, rest)
            | none => none
        | [] => none
      else if c = '[' then
        match skipWs r with
        | ']' :: r2 => some (JsVal.arr [], r2)
        | _ =>
          match parseItemsAux (parseVal f) (r.length + 1) r with
          | some (vs, rest) => some (JsVal.arr vs, rest)
          | none => none
      else if c = '"' then
        match parseJsonStringAux (r.length + 1) [] r with
        | some (s, rest) => some (JsVal.str s, rest)
        | none => none
      else if List.isPrefixOf "true".data (c :: r) then some (JsVal.bool true, (c :: r).drop 4)
      else if List.isPrefixOf "false".data (c :: r) then some (JsVal.bool false, (c :: r).drop 5)
      else if List.isPrefixOf "null".data (c :: r) then some (JsVal.null, (c :: r).drop 4)
      else
        match parseJsonNumber (c :: r) with
        | some (q, rest) => some (JsVal.num q, rest)
        | none => none

/-- `JSON.parse`: whole-input parse, `none` models the thrown SyntaxError. -/
def jsonParse (s : String) : Option JsVal :=
  match parseVal (s.length + 1) s.data with
  | some (v, rest) => if (skipWs rest).isEmpty then some v else none
  | none => none

/-! ## Digest auth transport (aiseg2.js, `parseWWWAuth` / `digestFetch`)

The MD5 hash and the random client nonce are abstracted as parameters
(`md5 : String → String`, `cnonce : String`); the appliance is a pure
`fetch : Request → Response`.  `digestFetch` returns, besides the final
response, the list of requests it issued, in order. -/

/-- Hard-coded credentials from aiseg2.js. -/
def USER : String := "aiseg"

/-- Hard-coded password from aiseg2.js. -/
def PASS : String := "0123456789"

/-- A `\w` character of the JavaScript regexp in `parseWWWAuth`. -/
def wordChar (c : Char) : Bool := c.isAlphanum || c = '_'

/-- Global scan of the regexp `(\w+)="([^"]+)"`: every `key="value"` pair of
the `WWW-Authenticate` header, in match order (leftmost, greedy).  Fueled:
on a failed match attempt the scan advances one character, exactly like the
JS engine. -/
def scanAuthAux : Nat → List Char → List (String × String)
  | 0, _ => []
  | _, [] => []
  | f + 1, c :: rest =>
    if wordChar c then
      let w := (c :: rest).takeWhile wordChar
      let r1 := (c :: rest).drop w.length
      match r1 with
      | '=' :: '"' :: r2 =>
        let v := r2.takeWhile (fun x => x ≠ '"')
        let r3 := r2.drop v.length
        match v, r3 with
        | _ :: _, '"' :: r4 => (String.mk w, String.mk v) :: scanAuthAux f r4
        | _, _ => scanAuthAux f rest
      | _ => scanAuthAux f rest
    else scanAuthAux f rest

/-- `parseWWWAuth(header)`: the pairs collected into a JS object. -/
def parseWWWAuth (header : String) : List (String × String) :=
  scanAuthAux (header.length + 1) header.data

/-- Property read on the object built by `parseWWWAuth`: assignment order
means the last binding for a key wins. -/
def jsProp (kvs : List (String × String)) (k : String) : Option String :=
  match (kvs.filter (fun p => p.1 = k)).getLast? with
  | some p => some p.2
  | none => none

/-- An HTTP request as the transport issues it.  The `Content-Type` header
accompanying a non-null body is implied by `body.isSome` and not tracked
separately. -/
structure Request where
  method : String
  path : String
  authorization : Option String
  body : Option String
deriving DecidableEq, Repr

/-- An HTTP response as the transport observes it. -/
structure Response where
  status : Nat
  wwwAuthenticate : String
  bodyText : String
deriving DecidableEq, Repr

/-- The `Authorization` header string built by `digestFetch`. -/
def digestAuthHeader (realm nonce path resp : String) (qop opq : Option String)
    (cnonce : String) : String :=
  "Digest username=\"aiseg\", realm=\"" ++ realm ++ "\", nonce=\"" ++ nonce
    ++ "\", uri=\"" ++ path ++ "\", response=\"" ++ resp ++ "\""
    ++ (if qop.isSome then ", qop=auth, nc=00000001, cnonce=\"" ++ cnonce ++ "\"" else "")
    ++ (match opq with
        | some o => ", opaque=\"" ++ o ++ "\""
        | none => "")

/-- `digestFetch(path, method, body)`: first pass without credentials; on a
401, parse the challenge, build the digest and retry exactly once.  Returns
the final response and the issued requests in order. -/
def digestFetch (md5 : String → String) (cnonce : String) (fetch : Request → Response)
    (path method : String) (body : Option String) : Response × List Request :=
  let req1 : Request := { method := method, path := path, authorization := none, body := body }
  let r1 := fetch req1
  if r1.status ≠ 401 then (r1, [req1])
  else
    let ch := parseWWWAuth r1.wwwAuthenticate
    let realm := (jsProp ch "realm").getD "AiSEG"
    let nonce := (jsProp ch "nonce").getD ""
    let opq := jsProp ch "opaque"
    let qop := jsProp ch "qop"
    let ha1 := md5 (USER ++ ":" ++ realm ++ ":" ++ PASS)
    let ha2 := md5 (method ++ ":" ++ path)
    let resp :=
      if qop = some "auth"
      then md5 (ha1 ++ ":" ++ nonce ++ ":" ++ "00000001" ++ ":" ++ cnonce ++ ":auth:" ++ ha2)
      else md5 (ha1 ++ ":" ++ nonce ++ ":" ++ ha2)
    let req2 : Request :=
      { req1 with authorization := some (digestAuthHeader realm nonce path resp qop opq cnonce) }
    (fetch req2, [req1, req2])

/-! ## kWh scraping (aiseg2.js, `parseKwh` / `getTotals`) -/

/-- Characters matched by `[\d.,]`. -/
def isKwhChar (c : Char) : Bool := c.isDigit || c = '.' || c = ','

/-- The literal `id="val_kwh"` inside the span-matching regexp. -/
def KWH_MARKER : List Char := "id=\"val_kwh\"".data

/-- The literal tail `</span>` of the span-matching regexp. -/
def SPAN_CLOSE : List Char := "</span>".data

/-- One position's attempt at `<span[^>]+id="val_kwh"[^>]*>([\d.,]+)</span>`
after the `<span` literal: `ks` enumerates the candidate lengths of the
greedy `[^>]+` from longest to shortest (regexp backtracking order). -/
def kwhTryKs (r : List Char) : List Nat → Option (List Char)
  | [] => none
  | k :: ks =>
    if (r.take k).all (fun c => c ≠ '>') ∧ List.isPrefixOf KWH_MARKER (r.drop k) then
      let after := r.drop (k + KWH_MARKER.length)
      match after.dropWhile (fun c => c ≠ '>') with
      | '>' :: r2 =>
        let num := r2.takeWhile isKwhChar
        if num ≠ [] ∧ List.isPrefixOf SPAN_CLOSE (r2.drop num.length)
        then some num
        else kwhTryKs r ks
      | _ => kwhTryKs r ks
    else kwhTryKs r ks

/-- Leftmost-match scan for the `val_kwh` span; returns the first capture. -/
def parseKwhAux : Nat → List Char → Option (List Char)
  | 0, _ => none
  | _, [] => none
  | f + 1, c :: rest =>
    if List.isPrefixOf "<span".data (c :: rest) then
      let r := (c :: rest).drop 5
      let maxK := (r.takeWhile (fun x => x ≠ '>')).length
      match kwhTryKs r (List.range' 1 maxK).reverse with
      | some num => some num
      | none => parseKwhAux f rest
    else parseKwhAux f rest

/-- `parseKwh(html)`: regexp match, then `m[1].replace(',', '')` (first
comma only!) fed to `parseFloat`.  `none` covers both the pattern miss
(JS `null`) and a NaN parse (which serialises to `null` at the API layer). -/
def parseKwh (html : String) : Option ℚ :=
  match parseKwhAux (html.length + 1) html.data with
  | some num => parseFloatChars (removeFirstComma num)
  | none => none

/-- Result shape of `getTotals`: the object always carries all four keys. -/
structure Totals where
  solar : Option ℚ
  consumption : Option ℚ
  purchase : Option ℚ
  sold : Option ℚ
deriving DecidableEq, Repr

/-- One category scrape: `digestFetch(...).then(r => r.text()).then(parseKwh)
.catch(() => null)`.  `fetchPage id = none` models the network error path. -/
def scrapeTotal (fetchPage : Nat → Option String) (id : Nat) : Option ℚ :=
  (fetchPage id).bind (fun html => parseKwh html)

/-- `getTotals()`: the four graph pages scraped independently. -/
def getTotals (fetchPage : Nat → Option String) : Totals :=
  { solar := scrapeTotal fetchPage 51111
    consumption := scrapeTotal fetchPage 52111
    purchase := scrapeTotal fetchPage 53111
    sold := scrapeTotal fetchPage 54111 }

/-! ## Circuit list (aiseg2.js, `getCircuits`) -/

/-- Script contents in document order: the regexp
`<script[^>]*>([\s\S]*?)<\/script>` applied globally.  The lazy body stops
at the first closing tag; a failed match attempt advances one character. -/
def extractScriptsAux : Nat → List Char → List String
  | 0, _ => []
  | _, [] => []
  | f + 1, c :: rest =>
    if List.isPrefixOf "<script".data (c :: rest) then
      let afterOpen := (c :: rest).drop 7
      match afterOpen.dropWhile (fun x => x ≠ '>') with
      | '>' :: r2 =>
        match splitOnSub (r2.length + 1) "</script>".data r2 with
        | some (content, after) => String.mk content :: extractScriptsAux f after
        | none => extractScriptsAux f rest
      | _ => extractScriptsAux f rest
    else extractScriptsAux f rest

/-- All script blocks of a page. -/
def extractScripts (html : String) : List String :=
  extractScriptsAux (html.length + 1) html.data

/-- The marker substring `getCircuits` looks for. -/
def CIRCUIT_MARKER : String := "arrayCircuitNameList"

/-- One row of `getCircuits`' result: `{id: String(c.strId), name:
c.strCircuit || template}`.  The name is kept as a `JsVal` because the
`||` fallback can let any truthy JSON value through. -/
structure Circuit where
  id : String
  name : JsVal

/-- The filter+map over `data.arrayCircuitNameList`; `none` models the
TypeError thrown when the filter callback reads `strBtnType` off a `null`
element, which the surrounding `try` turns into "skip this block". -/
def circuitsOfItems : List JsVal → Option (List Circuit)
  | [] => some []
  | JsVal.null :: _ => none
  | item :: rest =>
    match circuitsOfItems rest with
    | none => none
    | some cs =>
      if strictEqStr (getField item "strBtnType") "1" then
        some ({ id := jsToString (getField item "strId")
                name :=
                  if truthy (getField item "strCircuit") then getField item "strCircuit"
                  else JsVal.str ("Circuit " ++ jsToString (getField item "strId")) } :: cs)
      else some cs

/-- From the parsed JSON to the circuit rows:
`(data.arrayCircuitNameList || []).filter(c => c.strBtnType === '1').map(...)`.
`none` models the TypeError paths (property access on `null`, `.filter` on a
truthy non-array), which the `try` block turns into "skip this block". -/
def circuitsFromJson : JsVal → Option (List Circuit)
  | JsVal.null => none
  | v =>
    match getField v "arrayCircuitNameList" with
    | JsVal.arr items => circuitsOfItems items
    | x => if truthy x then none else some []

/-- One marker-containing block's attempt: slice from the character after
the FIRST `(` up to the LAST `)`, trim, `JSON.parse`, then the filter+map.
Any failure yields `none` (the loop continues with the next block). -/
def tryCircuitBlock (s : String) : Option (List Circuit) :=
  let l := indexOfChars s.data '('
  let rpos := lastIndexOfChars s.data ')'
  if l < 0 ∨ rpos ≤ l then none
  else
    match jsonParse (jsTrim (strSlice s (l + 1) rpos)) with
    | some v => circuitsFromJson v
    | none => none

/-- The block loop of `getCircuits`: first marker-containing block whose
attempt succeeds wins; none succeeding yields the empty list. -/
def getCircuitsFromScripts : List String → List Circuit
  | [] => []
  | s :: rest =>
    if strIncludes s CIRCUIT_MARKER then
      match tryCircuitBlock s with
      | some cs => cs
      | none => getCircuitsFromScripts rest
    else getCircuitsFromScripts rest

/-- `getCircuits(html)` applied to the settings-page markup. -/
def getCircuits (html : String) : List Circuit :=
  getCircuitsFromScripts (extractScripts html)

/-! ## Realtime snapshot (aiseg2.js, `getRealtime`) -/

/-- One `top` entry `{name, watts, visible}` (the `visible` key survives
into the filtered array, as in the source). -/
structure TopEntry where
  name : JsVal
  watts : JsVal
  visible : Bool

/-- Result shape of `getRealtime`. -/
structure RealtimeResult where
  gen_kw : ℚ
  use_kw : ℚ
  solar_w : JsVal
  enefarm_w : JsVal
  selling : Bool
  top : List TopEntry
  ev_connected : Bool
  battery_pct : JsVal
  fc_connected : Bool
  raw : JsVal

/-- `connFc > 0`: JS relational comparison via ToNumber (NaN compares
false). -/
def jsGtZero (v : JsVal) : Bool :=
  match jsToNumber v with
  | some q => decide (0 < q)
  | none => false

/-- The field remapping of `getRealtime`'s returned object, given the
parsed JSON body `d`.  The `|| 0` on `parseFloat` results maps both NaN and
0 to 0 (`Option.getD`); `?? 0` is nullish coalescing; the `top` entries are
built with the `visible` key and then filtered on it. -/
def mkRealtime (d : JsVal) : RealtimeResult :=
  { gen_kw := (jsParseFloat (getField d "g_capacity")).getD 0
    use_kw := (jsParseFloat (getField d "u_capacity")).getD 0
    solar_w := nullish (getField d "g_d_1_capacity") (JsVal.num 0)
    enefarm_w := nullish (getField d "g_d_2_capacity") (JsVal.num 0)
    selling := strictEqNum (getField d "lo_buy_sell") 1
    top :=
      ([{ name := getField d "u_d_1_title", watts := getField d "u_d_1_capacity",
          visible := strictEqNum (getField d "best1") 1 },
        { name := getField d "u_d_2_title", watts := getField d "u_d_2_capacity",
          visible := strictEqNum (getField d "best2") 1 },
        { name := getField d "u_d_3_title", watts := getField d "u_d_3_capacity",
          visible := strictEqNum (getField d "best3") 1 }] :
        List TopEntry).filter (fun c => c.visible)
    ev_connected := strictEqNum (getField d "connEv") 1
    battery_pct := if truthy (getField d "connSb") then getField d "percent" else JsVal.null
    fc_connected := jsGtZero (getField d "connFc")
    raw := d }

/-- `getRealtime` on the parsed JSON body `d`.  `none` models the TypeError
thrown when `d` is `null` (property access), which the route handler
surfaces as a gateway error. -/
def getRealtime (d : JsVal) : Option RealtimeResult :=
  match d with
  | JsVal.null => none
  | JsVal.undef => none
  | _ => some (mkRealtime d)

/-! ## Bulk circuit kWh (aiseg2.js, `getAllCircuitKwh`) -/

/-- The per-batch loop of `getAllCircuitKwh` with `CONCURRENCY = 10`.
`fetch c.id` stands for the settled value of
`getCircuitKwh(c.id).catch(() => null)` — `none` is the degraded-to-null
failure.  Besides the results, the schedule of issued batches is returned:
each inner list is one `Promise.all` round, fully drained before the next
begins.  Fuel is one more than the circuit count (a batch consumes at
least one circuit). -/
def getAllCircuitKwhAux (fetch : String → Option ℚ) :
    Nat → List Circuit → List (Option ℚ) × List (List String)
  | 0, _ => ([], [])
  | _, [] => ([], [])
  | f + 1, c :: cs =>
    let batch := c :: cs.take 9
    let rest := cs.drop 9
    let acc := getAllCircuitKwhAux fetch f rest
    (batch.map (fun x => fetch x.id) ++ acc.1, batch.map Circuit.id :: acc.2)

/-- `getAllCircuitKwh(circuits)`. -/
def getAllCircuitKwh (fetch : String → Option ℚ) (circuits : List Circuit) :
    List (Option ℚ) × List (List String) :=
  getAllCircuitKwhAux fetch (circuits.length + 1) circuits

/-! ## Floor-heater level encoding (aiseg2.js, `setFHLevel`) -/

/-- The clamp-and-encode step of `setFHLevel`:
`lvl = Math.max(1, Math.min(9, level)); templevel = '0x3' + lvl`. -/
def setFHLevelCode (level : Int) : String :=
  let lvl := max 1 (min 9 level)
  "0x3" ++ toString lvl

/-! ## Session token and the control route (server.js + aiseg2.js) -/

/-- An upstream appliance call observable from the control route. -/
inductive Upstream where
  | tokenFetch : Upstream
  | acChange : Upstream
  | fhChange : Upstream
  | bathCmd : Upstream
  | generateCmd : Upstream
  | acSettings : Nat → Upstream
  | fhLevel : Upstream
deriving DecidableEq, Repr

/-- The module-level `_token` / `_tokenAt` pair of aiseg2.js. -/
structure TokenCache where
  tok : Option String
  tokAt : Int
deriving DecidableEq, Repr

/-- `getToken()`: the cached token when fresher than one hour, otherwise a
digest fetch of the device page (the token scraped from it, with fallback
`'32140'`, is abstracted as `fetchedTok`).  Returns the token, the new
cache and the upstream calls made. -/
def getTokenModel (tc : TokenCache) (now : Int) (fetchedTok : String) :
    String × TokenCache × List Upstream :=
  match tc.tok with
  | some t =>
    if now - tc.tokAt < 3600000 then (t, tc, [])
    else (fetchedTok, { tok := some fetchedTok, tokAt := now }, [Upstream.tokenFetch])
  | none => (fetchedTok, { tok := some fetchedTok, tokAt := now }, [Upstream.tokenFetch])

/-- The eight action strings the control route recognises. -/
def knownActions : List String :=
  ["toggleAC", "toggleFH", "toggleBath", "toggleGenerate",
   "setACMode", "setACTemp", "setACFan", "setFHLevel"]

/-- The if/else-if dispatch of `POST /api/devices/control`: the upstream
appliance call the matched branch performs, `none` for the final
`res.status(400)` branch. -/
def dispatchUpstream (action : String) : Option Upstream :=
  if action = "toggleAC" then some Upstream.acChange
  else if action = "toggleFH" then some Upstream.fhChange
  else if action = "toggleBath" then some Upstream.bathCmd
  else if action = "toggleGenerate" then some Upstream.generateCmd
  else if action = "setACMode" then some (Upstream.acSettings 1)
  else if action = "setACTemp" then some (Upstream.acSettings 2)
  else if action = "setACFan" then some (Upstream.acSettings 3)
  else if action = "setFHLevel" then some Upstream.fhLevel
  else none

/-- The token line `cache.devices?.token || await aiseg2.getToken()`: the
upstream calls it makes — none when a truthy token sits in the devices
cache, otherwise whatever `getToken()` makes. -/
def resolveTokenCalls (devicesToken : Option String) (tc : TokenCache) (now : Int)
    (fetchedTok : String) : List Upstream :=
  match devicesToken with
  | some t => if t = "" then (getTokenModel tc now fetchedTok).2.2 else []
  | none => (getTokenModel tc now fetchedTok).2.2

/-- `POST /api/devices/control`: the token line
`cache.devices?.token || await aiseg2.getToken()` runs BEFORE the action
dispatch.  Returns the HTTP status and the upstream calls, in order.
`devicesToken` is `cache.devices?.token` (`none` when the devices cache is
absent); `action = none` models a body without an `action` field. -/
def postDevicesControl (devicesToken : Option String) (tc : TokenCache) (now : Int)
    (fetchedTok : String) (action : Option String) : Nat × List Upstream :=
  let tokenCalls : List Upstream := resolveTokenCalls devicesToken tc now fetchedTok
  match action with
  | some a =>
    match dispatchUpstream a with
    | some u => (200, tokenCalls ++ [u])
    | none => (400, tokenCalls)
  | none => (400, tokenCalls)

/-! ## Cache reads (server.js, the GET /api/... handlers) -/

/-- One cache entry `{payload, lastFetchedAt}` of a data category. -/
structure CacheEntry (α : Type) where
  payload : Option α
  fetchedAt : Int

/-- A REST response of the cached-category handlers. -/
inductive RestResponse (α : Type) where
  | ok : Option α → RestResponse α
  | err : Nat → String → RestResponse α

/-- TTL of the realtime category, in milliseconds. -/
def TTL_realtime : Int := 5000

/-- TTL of the totals category. -/
def TTL_totals : Int := 60000

/-- TTL of the circuit-kWh category. -/
def TTL_circuitKwh : Int := 300000

/-- TTL of the devices category. -/
def TTL_devices : Int := 10000

/-- The shared shape of `GET /api/realtime` / `/api/totals` / `/api/devices`
with its `fetchX` helper: if `Date.now() - cache.xAt > TTL.x`, refresh
(on success store the payload and stamp the post-fetch time `now2`; on a
thrown error answer 502 and leave the cache untouched), then serve the
cache.  Returns the new cache entry, the response, and how many upstream
fetches were made by this read. -/
def apiGetCategory {α : Type} (ttl now1 now2 : Int) (upstream : Except String α)
    (c : CacheEntry α) : CacheEntry α × RestResponse α × Nat :=
  if now1 - c.fetchedAt > ttl then
    match upstream with
    | Except.ok d =>
      let c2 : CacheEntry α := { payload := some d, fetchedAt := now2 }
      (c2, RestResponse.ok c2.payload, 1)
    | Except.error e => (c, RestResponse.err 502 e, 1)
  else (c, RestResponse.ok c.payload, 0)

/-! ## Nickname overlay (server.js, `applyNicknames` and POST /api/nicknames) -/

/-- A device row of the cached devices payload, as `applyNicknames` sees
it: identity, default name, and the optional `nickname` key a previous
annotation may have added. -/
structure Device where
  nodeId : String
  eoj : String
  name : String
  nickname : Option String
deriving DecidableEq, Repr

/-- The devices payload `{token, acs, fhs, enefarm}`; the enefarm part is
irrelevant to the overlay and carried opaquely. -/
structure DevicesPayload where
  token : String
  acs : List Device
  fhs : List Device
  enefarm : JsVal

/-- The `applyName` closure: add the nickname when a truthy mapping exists
for `nodeId_eoj`, otherwise return the device UNCHANGED (an existing
`nickname` key is never removed). -/
def applyName (nicknames : String → Option String) (d : Device) : Device :=
  match nicknames (d.nodeId ++ "_" ++ d.eoj) with
  | some v => if v = "" then d else { d with nickname := some v }
  | none => d

/-- `applyNicknames(data)`: falsy data passes through; otherwise `acs` and
`fhs` are re-mapped and the other keys are spread unchanged. -/
def applyNicknames (nicknames : String → Option String) :
    Option DevicesPayload → Option DevicesPayload
  | none => none
  | some data =>
    some { data with
            acs := data.acs.map (applyName nicknames)
            fhs := data.fhs.map (applyName nicknames) }

/-- `POST /api/nicknames`: missing ids are rejected with 400; a non-blank
name sets `nicknames[key] = name.trim()`, a blank or absent name deletes
the key; the devices cache, when present, is eagerly re-annotated with the
new mapping.  Returns the new mapping, the new devices cache and the HTTP
status.  (The `saveNicknames` file write is outside the model.) -/
def postNicknames (nicknames : String → Option String)
    (devCache : Option DevicesPayload) (nodeId eoj : Option String)
    (name : Option String) :
    (String → Option String) × Option DevicesPayload × Nat :=
  match nodeId, eoj with
  | some nid, some e =>
    if nid = "" ∨ e = "" then (nicknames, devCache, 400)
    else
      let key := nid ++ "_" ++ e
      let nick2 : String → Option String :=
        match name with
        | some nm =>
          if jsTrim nm = "" then fun k => if k = key then none else nicknames k
          else fun k => if k = key then some (jsTrim nm) else nicknames k
        | none => fun k => if k = key then none else nicknames k
      (nick2, applyNicknames nick2 devCache, 200)
  | _, _ => (nicknames, devCache, 400)

/-! ## Spec-side comparison definitions

These two definitions follow the SPEC'S words (not the source) and exist
only to be compared against the source-derived functions above. -/

/-- Spec-side reading of the totals parse: "parsed as a locale-formatted
decimal (comma group separators stripped)" — ALL commas removed before the
decimal parse. -/
def specParseAllCommasStripped (capture : List Char) : Option ℚ :=
  parseFloatChars (capture.filter (fun c => c ≠ ','))

/-- Spec-side reading of the circuit-list extraction: "the
balanced-parenthesis argument" — the text between the first opening
parenthesis and its MATCHING closing parenthesis. -/
def specBalancedArg (s : String) : Option String :=
  let rec go : List Char → Nat → List Char → Option String
    | [], _, _ => none
    | c :: r, d, acc =>
      if c = ')' then
        match d with
        | 0 => some (String.mk acc.reverse)
        | d' + 1 => go r d' (c :: acc)
      else if c = '(' then go r (d + 1) (c :: acc)
      else go r d (c :: acc)
  match s.data.dropWhile (fun c => c ≠ '(') with
  | '(' :: r => go r 0 []
  | _ => none

/-! ## Concrete fixtures used by the per-claim theorems -/

/-- A totals page whose span holds a value with TWO comma group
separators. -/
def kwhTwoCommaPage : String := "<span id=\"val_kwh\">1,234,567.8</span>"

/-- A totals page with a single comma group separator (the spec's own
example). -/
def kwhOneCommaPage : String := "<span id=\"val_kwh\">1,234.56</span>"

/-- First script block of the circuit-list fixture: its balanced argument
is valid JSON (circuit A), but trailing code after the call makes the
first-`(`-to-last-`)` slice unparseable. -/
def c6Block1 : String :=
  "arrayCircuitNameList(\x7b\"arrayCircuitNameList\":[\x7b\"strId\":\"1\",\"strCircuit\":\"A\",\"strBtnType\":\"1\"\x7d]\x7d); trailing()"

/-- Second script block of the circuit-list fixture: a clean call whose
slice parses (circuit B). -/
def c6Block2 : String :=
  "arrayCircuitNameList(\x7b\"arrayCircuitNameList\":[\x7b\"strId\":\"2\",\"strCircuit\":\"B\",\"strBtnType\":\"1\"\x7d]\x7d)"

/-- The two-block circuit-list page. -/
def c6Html : String :=
  "<script>" ++ c6Block1 ++ "</script><script>" ++ c6Block2 ++ "</script>"

/-- Realtime payload where `best1 = 1` but `u_d_1_capacity` is absent. -/
def c9PayloadMissingWatts : JsVal := JsVal.obj [("best1", JsVal.num 1)]

/-- Realtime payload where `g_d_1_capacity` is a non-numeric string. -/
def c9PayloadStringSolar : JsVal := JsVal.obj [("g_d_1_capacity", JsVal.str "-")]

/-- Realtime payload exercising the amended defaults (unparseable
`g_capacity`, visible second top consumer). -/
def c9WitnessPayload : JsVal :=
  JsVal.obj [("g_capacity", JsVal.str "x"), ("best2", JsVal.num 1),
             ("u_d_2_capacity", JsVal.num 300)]

/-- Mock hash for the digest witness. -/
def md5w (s : String) : String := "H<" ++ s ++ ">"

/-- Mock appliance for the digest witness: 401 with a qop=auth challenge
until an Authorization header is present. -/
def fetchw (r : Request) : Response :=
  match r.authorization with
  | none =>
    { status := 401
      wwwAuthenticate := "Digest realm=\"R1\", nonce=\"n1\", qop=\"auth\", opaque=\"op1\""
      bodyText := "" }
  | some _ => { status := 200, wwwAuthenticate := "", bodyText := "ok" }

/-- 25 circuits for the bulk-fetch witness. -/
def c5Circuits : List Circuit :=
  (List.range 25).map (fun i => { id := toString i, name := JsVal.str ("c" ++ toString i) })

/-- Per-circuit oracle for the bulk-fetch witness: every third circuit
fails (settles to null). -/
def c5Fetch (id : String) : Option ℚ :=
  match id.toNat? with
  | some n => if n % 3 = 0 then none else some (n : ℚ)
  | none => none

/-- Nickname mapping for the overlay witness: device `1_2` currently
renamed. -/
def nick0 (k : String) : Option String :=
  if k = "1_2" then some "Old" else none

/-- The device row the overlay witness resets. -/
def dev0 : Device :=
  { nodeId := "1", eoj := "2", name := "エアコンA", nickname := some "Old" }

/-- Cached devices payload for the overlay witness. -/
def payload0 : DevicesPayload :=
  { token := "32140", acs := [dev0], fhs := [], enefarm := JsVal.obj [] }

/-! # Theorems -/

section
attribute [local semireducible] Rat.add Rat.mul Rat.inv Rat.sub

/-! ## Helper lemmas -/

/-- Characterisation of the fueled batch loop: with enough fuel the results
are the input-order map of the per-circuit oracle, every scheduled batch
has at most 10 requests, and the concatenated schedule covers the inputs in
order. -/
theorem getAllCircuitKwhAux_spec (fetch : String → Option ℚ) :
    ∀ f l, l.length < f →
      (getAllCircuitKwhAux fetch f l).1 = l.map (fun c => fetch c.id) ∧
      (∀ b ∈ (getAllCircuitKwhAux fetch f l).2, b.length ≤ 10) ∧
      (getAllCircuitKwhAux fetch f l).2.flatten = l.map Circuit.id := by
  intro f
  induction f with
  | zero => intro l h; omega
  | succ f ih =>
    intro l h
    cases l with
    | nil => simp [getAllCircuitKwhAux]
    | cons c cs =>
      have hlen : (cs.drop 9).length < f := by
        simp only [List.length_drop]
        simp only [List.length_cons] at h
        omega
      obtain ⟨h1, h2, h3⟩ := ih (cs.drop 9) hlen
      have hsplit : (c :: cs.take 9) ++ cs.drop 9 = c :: cs := by
        simp [List.take_append_drop]
      refine ⟨?_, ?_, ?_⟩
      · show (c :: cs.take 9).map (fun x => fetch x.id) ++
            (getAllCircuitKwhAux fetch f (cs.drop 9)).1 = _
        rw [h1, ← List.map_append, hsplit]
      · intro b hb
        show b.length ≤ 10
        rcases List.mem_cons.mp hb with hb1 | hb2
        · subst hb1
          simp only [List.length_map, List.length_cons, List.length_take]
          omega
        · exact h2 b hb2
      · show ((c :: cs.take 9).map Circuit.id ::
            (getAllCircuitKwhAux fetch f (cs.drop 9)).2).flatten = _
        rw [List.flatten_cons, h3, ← List.map_append, hsplit]

/-- A skipped block (no marker, or a failed attempt) leaves the scan of the
remaining blocks unchanged. -/
theorem getCircuitsFromScripts_skip (s : String) (rest : List String)
    (h : strIncludes s CIRCUIT_MARKER = false ∨ tryCircuitBlock s = none) :
    getCircuitsFromScripts (s :: rest) = getCircuitsFromScripts rest := by
  rcases h with hm | hb
  · simp [getCircuitsFromScripts, hm]
  · cases hmk : strIncludes s CIRCUIT_MARKER
    · simp [getCircuitsFromScripts, hmk]
    · simp [getCircuitsFromScripts, hmk, hb]

/-- When no marker-containing block's attempt succeeds, the scan returns
the empty list. -/
theorem getCircuitsFromScripts_nil (l : List String)
    (h : ∀ s ∈ l, strIncludes s CIRCUIT_MARKER = true → tryCircuitBlock s = none) :
    getCircuitsFromScripts l = [] := by
  induction l with
  | nil => rfl
  | cons s rest ih =>
    have hrest := ih (fun t ht hmt => h t (List.mem_cons_of_mem _ ht) hmt)
    cases hmk : strIncludes s CIRCUIT_MARKER
    · rw [getCircuitsFromScripts_skip s rest (Or.inl hmk)]
      exact hrest
    · rw [getCircuitsFromScripts_skip s rest (Or.inr (h s (List.mem_cons_self _ _) hmk))]
      exact hrest

/-- A successful `getRealtime` run returns exactly the `mkRealtime`
remapping of its input. -/
theorem getRealtime_eq_mkRealtime (d : JsVal) (res : RealtimeResult)
    (hres : getRealtime d = some res) : res = mkRealtime d := by
  cases d
  case null => exact absurd hres (by simp [getRealtime])
  case undef => exact absurd hres (by simp [getRealtime])
  all_goals
    simp only [getRealtime, Option.some.injEq] at hres
    exact hres.symm

/-! ## C4 — cache TTL read contract -/

/-- C4: a REST read of a cached category within TTL (elapsed ≤ TTL, the
code refreshes only when `Date.now() - at > TTL`) serves the cached
payload, changes neither payload nor timestamp and performs no upstream
fetch; a read past TTL performs exactly one upstream fetch and, when it
succeeds, replaces the payload and stamps the post-fetch time. -/
theorem apiGetCategory_c4 {α : Type} (ttl now1 now2 : Int) (v : α) (c : CacheEntry α) :
    (now1 - c.fetchedAt ≤ ttl →
      apiGetCategory ttl now1 now2 (Except.ok v) c = (c, RestResponse.ok c.payload, 0)) ∧
    (now1 - c.fetchedAt > ttl →
      apiGetCategory ttl now1 now2 (Except.ok v) c =
        ({ payload := some v, fetchedAt := now2 }, RestResponse.ok (some v), 1)) := by
  constructor
  · intro h
    unfold apiGetCategory
    rw [if_neg (by omega)]
  · intro h
    unfold apiGetCategory
    rw [if_pos h]

/-- C4 witness: concrete reads 4 s and 9 s after a fetch at time 0 against
the realtime TTL of 5 s. -/
theorem apiGetCategory_c4_witness :
    ((4000 : Int) - 0 ≤ TTL_realtime ∧
      apiGetCategory TTL_realtime 4000 4001 (Except.ok (37 : ℚ))
          { payload := some 5, fetchedAt := 0 } =
        ({ payload := some 5, fetchedAt := 0 }, RestResponse.ok (some 5), 0)) ∧
    ((9000 : Int) - 0 > TTL_realtime ∧
      apiGetCategory TTL_realtime 9000 9001 (Except.ok (37 : ℚ))
          { payload := some 5, fetchedAt := 0 } =
        ({ payload := some 37, fetchedAt := 9001 }, RestResponse.ok (some 37), 1)) :=
  ⟨⟨by decide,
    (apiGetCategory_c4 TTL_realtime 4000 4001 (37 : ℚ) { payload := some 5, fetchedAt := 0 }).1
      (by decide)⟩,
   ⟨by decide,
    (apiGetCategory_c4 TTL_realtime 9000 9001 (37 : ℚ) { payload := some 5, fetchedAt := 0 }).2
      (by decide)⟩⟩

/-! ## C8 — failed forced refresh -/

/-- C8: when the upstream fetch of an expired read throws, that caller gets
a 502 gateway error with the failure message, the cache entry (payload and
timestamp) is left exactly as it was, and any later read that is still past
TTL performs an upstream fetch again. -/
theorem apiGetCategory_c8 {α : Type} (ttl now1 now2 now1' now2' : Int) (e : String)
    (u' : Except String α) (c : CacheEntry α)
    (hexp : now1 - c.fetchedAt > ttl) (hexp' : now1' - c.fetchedAt > ttl) :
    apiGetCategory ttl now1 now2 (Except.error e) c = (c, RestResponse.err 502 e, 1) ∧
    (apiGetCategory ttl now1' now2' u' c).2.2 = 1 := by
  constructor
  · unfold apiGetCategory
    rw [if_pos hexp]
  · unfold apiGetCategory
    rw [if_pos hexp']
    cases u' <;> rfl

/-- C8 witness: a failed refresh at 9 s on the realtime category, then a
retried refresh at 10 s. -/
theorem apiGetCategory_c8_witness :
    ((9000 : Int) - 0 > TTL_realtime ∧ (10000 : Int) - 0 > TTL_realtime) ∧
    apiGetCategory TTL_realtime 9000 9001 (Except.error "AiSEG2 HTTP 500")
        ({ payload := some (5 : ℚ), fetchedAt := 0 }) =
      ({ payload := some 5, fetchedAt := 0 }, RestResponse.err 502 "AiSEG2 HTTP 500", 1) ∧
    (apiGetCategory TTL_realtime 10000 10001 (Except.ok (7 : ℚ))
        { payload := some 5, fetchedAt := 0 }).2.2 = 1 := by
  have h := apiGetCategory_c8 TTL_realtime 9000 9001 10000 10001 "AiSEG2 HTTP 500"
    (Except.ok (7 : ℚ)) { payload := some 5, fetchedAt := 0 } (by decide) (by decide)
  exact ⟨⟨by decide, by decide⟩, h.1, h.2⟩

/-! ## C5 — bulk circuit kWh fetch -/

/-- C5: for every circuit list, the bulk fetch returns exactly one result
per input circuit, in input order, each being that circuit's settled value
(null on failure); the issued schedule consists of successive batches of at
most 10 requests, each drained before the next starts, whose concatenation
is exactly the input order — so at most 10 requests are outstanding at any
instant. -/
theorem getAllCircuitKwh_c5 (fetch : String → Option ℚ) (circuits : List Circuit) :
    (getAllCircuitKwh fetch circuits).1 = circuits.map (fun c => fetch c.id) ∧
    (getAllCircuitKwh fetch circuits).1.length = circuits.length ∧
    (∀ b ∈ (getAllCircuitKwh fetch circuits).2, b.length ≤ 10) ∧
    (getAllCircuitKwh fetch circuits).2.flatten = circuits.map Circuit.id := by
  obtain ⟨h1, h2, h3⟩ :=
    getAllCircuitKwhAux_spec fetch (circuits.length + 1) circuits (by omega)
  unfold getAllCircuitKwh
  exact ⟨h1, by rw [h1]; simp, h2, h3⟩

/-- C5 witness: 25 circuits with every third one failing — 25 in-order
results and a first batch of exactly 10. -/
theorem getAllCircuitKwh_c5_witness :
    (getAllCircuitKwh c5Fetch c5Circuits).1.length = 25 ∧
    (c5Circuits.take 10).map Circuit.id ∈ (getAllCircuitKwh c5Fetch c5Circuits).2 ∧
    ((c5Circuits.take 10).map Circuit.id).length ≤ 10 := by
  refine ⟨((getAllCircuitKwh_c5 c5Fetch c5Circuits).2.1).trans (by decide), ?_, ?_⟩
  · decide
  · exact (getAllCircuitKwh_c5 c5Fetch c5Circuits).2.2.1 _ (by decide)

/-! ## C7 — floor-heater level encoding -/

/-- C7: the floor-heater level is clamped into [1,9] before encoding; each
in-range level n encodes to the fixed code `'0x3' + n`; the sample inputs
0, 1, 5, 9, 10 encode to the level-1, 1, 5, 9, 9 codes; and every integer
input yields one of the nine valid codes (never an error). -/
theorem setFHLevelCode_c7 :
    (∀ n : Int, 1 ≤ n → n ≤ 9 → setFHLevelCode n = "0x3" ++ toString n) ∧
    (∀ level : Int, setFHLevelCode level = setFHLevelCode (max 1 (min 9 level))) ∧
    (setFHLevelCode 0 = "0x31" ∧ setFHLevelCode 1 = "0x31" ∧ setFHLevelCode 5 = "0x35" ∧
      setFHLevelCode 9 = "0x39" ∧ setFHLevelCode 10 = "0x39") ∧
    (∀ level : Int,
      setFHLevelCode level ∈
        ["0x31", "0x32", "0x33", "0x34", "0x35", "0x36", "0x37", "0x38", "0x39"]) := by
  refine ⟨?_, ?_, ⟨by decide, by decide, by decide, by decide, by decide⟩, ?_⟩
  · intro n h1 h2
    show "0x3" ++ toString (max 1 (min 9 n)) = "0x3" ++ toString n
    rw [min_eq_right h2, max_eq_right h1]
  · intro level
    have hm1 : (1 : Int) ≤ max 1 (min 9 level) := le_max_left 1 _
    have hm2 : max 1 (min 9 level) ≤ 9 := max_le (by norm_num) (min_le_left 9 level)
    show "0x3" ++ toString (max 1 (min 9 level)) =
      "0x3" ++ toString (max 1 (min 9 (max 1 (min 9 level))))
    rw [min_eq_right hm2, max_eq_right hm1]
  · intro level
    show "0x3" ++ toString (max 1 (min 9 level)) ∈ _
    obtain ⟨m, hm, hm1, hm2⟩ : ∃ m : Int, max 1 (min 9 level) = m ∧ 1 ≤ m ∧ m ≤ 9 :=
      ⟨max 1 (min 9 level), rfl, le_max_left 1 _,
        max_le (by norm_num) (min_le_left 9 level)⟩
    rw [hm]
    interval_cases m <;> decide

/-- C7 witness: the in-range case applied at level 7. -/
theorem setFHLevelCode_c7_witness :
    (1 : Int) ≤ 7 ∧ (7 : Int) ≤ 9 ∧ setFHLevelCode 7 = "0x3" ++ toString (7 : Int) :=
  ⟨by decide, by decide, setFHLevelCode_c7.1 7 (by decide) (by decide)⟩

/-! ## C2 — unknown control action -/

/-- C2 counterexample: with no cached devices payload and a stale module
token cache, an unknown action (`"restart"`) is answered 400, but an
upstream appliance call (the session-token fetch of
`cache.devices?.token || await aiseg2.getToken()`) IS attempted before
that rejection — refuting "no upstream call to the appliance is attempted
before that rejection". -/
theorem postDevicesControl_c2_counterexample :
    (postDevicesControl none { tok := none, tokAt := 0 } 0 "32140" (some "restart")).1 =
      400 ∧
    (postDevicesControl none { tok := none, tokAt := 0 } 0 "32140" (some "restart")).2 =
      [Upstream.tokenFetch] ∧
    ([Upstream.tokenFetch] : List Upstream) ≠ [] :=
  ⟨rfl, rfl, by decide⟩

/-- C2 amended: every request whose action is not one of the eight
supported actions is answered 400, and no device-control upstream call is
ever attempted for it — the only upstream call that can precede the
rejection is the session-token fetch, which is skipped whenever a truthy
token sits in the devices cache, and also whenever the module token cache
is fresh. -/
theorem postDevicesControl_c2_amended (devicesToken : Option String) (tc : TokenCache)
    (now : Int) (fetchedTok : String) (action : Option String)
    (h : ∀ a, action = some a → a ∉ knownActions) :
    (postDevicesControl devicesToken tc now fetchedTok action).1 = 400 ∧
    (∀ u ∈ (postDevicesControl devicesToken tc now fetchedTok action).2,
      u = Upstream.tokenFetch) ∧
    (∀ t, devicesToken = some t → t ≠ "" →
      (postDevicesControl devicesToken tc now fetchedTok action).2 = []) ∧
    (∀ t, tc.tok = some t → now - tc.tokAt < 3600000 →
      (postDevicesControl devicesToken tc now fetchedTok action).2 = []) := by
  have hd : ∀ a, action = some a → dispatchUpstream a = none := by
    intro a ha
    have hk := h a ha
    simp only [knownActions, List.mem_cons, List.not_mem_nil, or_false, not_or] at hk
    obtain ⟨k1, k2, k3, k4, k5, k6, k7, k8⟩ := hk
    simp [dispatchUpstream, k1, k2, k3, k4, k5, k6, k7, k8]
  have hcalls : (postDevicesControl devicesToken tc now fetchedTok action).2 =
      resolveTokenCalls devicesToken tc now fetchedTok := by
    cases action with
    | none => rfl
    | some a => simp [postDevicesControl, hd a rfl]
  have hstatus : (postDevicesControl devicesToken tc now fetchedTok action).1 = 400 := by
    cases action with
    | none => rfl
    | some a => simp [postDevicesControl, hd a rfl]
  have htok : ∀ u ∈ (getTokenModel tc now fetchedTok).2.2, u = Upstream.tokenFetch := by
    intro u hu
    cases htc : tc.tok with
    | none =>
      simp only [getTokenModel, htc] at hu
      simpa using hu
    | some t =>
      simp only [getTokenModel, htc] at hu
      by_cases hf : now - tc.tokAt < 3600000
      · simp [hf] at hu
      · simp only [if_neg hf] at hu
        simpa using hu
  refine ⟨hstatus, ?_, ?_, ?_⟩
  · intro u hu
    rw [hcalls] at hu
    cases devicesToken with
    | none =>
      simp only [resolveTokenCalls] at hu
      exact htok u hu
    | some t =>
      simp only [resolveTokenCalls] at hu
      by_cases ht : t = ""
      · rw [if_pos ht] at hu
        exact htok u hu
      · rw [if_neg ht] at hu
        simp at hu
  · intro t ht hne
    rw [hcalls, ht]
    simp [resolveTokenCalls, hne]
  · intro t ht hf
    rw [hcalls]
    have hz : (getTokenModel tc now fetchedTok).2.2 = [] := by
      simp [getTokenModel, ht, hf]
    cases devicesToken with
    | none => simpa [resolveTokenCalls] using hz
    | some t2 =>
      by_cases h2 : t2 = ""
      · simp [resolveTokenCalls, h2, hz]
      · simp [resolveTokenCalls, h2]

/-- C2 witness: a truthy cached devices token and the unknown action
`"frobnicate"` — 400 with zero upstream calls. -/
theorem postDevicesControl_c2_witness :
    (postDevicesControl (some "5555") { tok := none, tokAt := 0 } 0 "32140"
        (some "frobnicate")).1 = 400 ∧
    (postDevicesControl (some "5555") { tok := none, tokAt := 0 } 0 "32140"
        (some "frobnicate")).2 = [] := by
  have h := postDevicesControl_c2_amended (some "5555") { tok := none, tokAt := 0 } 0
    "32140" (some "frobnicate")
    (by intro a ha; injection ha with hb; subst hb; decide)
  exact ⟨h.1, h.2.2.1 "5555" rfl (by decide)⟩

/-! ## C10 — nickname reset leaves cached annotations in place -/

/-- C10: resetting a nickname (blank or absent name) removes the mapping
and eagerly re-annotates the cached devices payload with the new mapping;
`applyName` never deletes a `nickname` key (only adds one when a truthy
mapping exists), so every cached device whose key was reset passes through
completely unchanged, keeping its previously-added nickname until the next
full device fetch. -/
theorem postNicknames_c10 (nicknames : String → Option String)
    (devCache : Option DevicesPayload) (nid e : String) (name : Option String)
    (payload : DevicesPayload)
    (hnid : nid ≠ "") (he : e ≠ "") (hblank : jsTrim (name.getD "") = "")
    (hcache : devCache = some payload) :
    (postNicknames nicknames devCache (some nid) (some e) name).1 (nid ++ "_" ++ e) =
      none ∧
    (postNicknames nicknames devCache (some nid) (some e) name).2.1 =
      some { payload with
              acs := payload.acs.map
                (applyName (postNicknames nicknames devCache (some nid) (some e) name).1)
              fhs := payload.fhs.map
                (applyName (postNicknames nicknames devCache (some nid) (some e) name).1) } ∧
    (∀ nick : String → Option String, ∀ d : Device,
      (applyName nick d).nickname = none → d.nickname = none) ∧
    (∀ d ∈ payload.acs, d.nodeId ++ "_" ++ d.eoj = nid ++ "_" ++ e →
      applyName (postNicknames nicknames devCache (some nid) (some e) name).1 d = d) := by
  have hnick : (postNicknames nicknames devCache (some nid) (some e) name).1 =
      fun k => if k = nid ++ "_" ++ e then none else nicknames k := by
    cases name with
    | none => simp [postNicknames, hnid, he]
    | some nm =>
      have ht : jsTrim nm = "" := by simpa using hblank
      simp [postNicknames, hnid, he, ht]
  have hkey : (postNicknames nicknames devCache (some nid) (some e) name).1
      (nid ++ "_" ++ e) = none := by
    rw [hnick]
    simp
  refine ⟨hkey, ?_, ?_, ?_⟩
  · subst hcache
    have h2 : (postNicknames nicknames (some payload) (some nid) (some e) name).2.1 =
        applyNicknames (postNicknames nicknames (some payload) (some nid) (some e) name).1
          (some payload) := by
      cases name with
      | none => simp [postNicknames, hnid, he]
      | some nm =>
        have ht : jsTrim nm = "" := by simpa using hblank
        simp [postNicknames, hnid, he, ht]
    rw [h2]
    rfl
  · intro nick d hnone
    cases hv : nick (d.nodeId ++ "_" ++ d.eoj) with
    | none => simpa [applyName, hv] using hnone
    | some v =>
      by_cases hve : v = ""
      · simpa [applyName, hv, hve] using hnone
      · simp [applyName, hv, hve] at hnone
  · intro d _ hdkey
    show (match (postNicknames nicknames devCache (some nid) (some e) name).1
        (d.nodeId ++ "_" ++ d.eoj) with
      | some v => if v = "" then d else { d with nickname := some v }
      | none => d) = d
    rw [hdkey, hkey]

/-- C10 witness: resetting device `1_2`'s nickname with a blank name leaves
the cached, already-annotated device row untouched. -/
theorem postNicknames_c10_witness :
    ("1" : String) ≠ "" ∧ jsTrim ((some "   " : Option String).getD "") = "" ∧
    (postNicknames nick0 (some payload0) (some "1") (some "2") (some "   ")).1 "1_2" =
      none ∧
    applyName (postNicknames nick0 (some payload0) (some "1") (some "2") (some "   ")).1
      dev0 = dev0 := by
  have h := postNicknames_c10 nick0 (some payload0) "1" "2" (some "   ") payload0
    (by decide) (by decide) (by decide) rfl
  exact ⟨by decide, by decide, h.1, h.2.2.2 dev0 (by simp [payload0]) (by decide)⟩

/-! ## C1 — digest transport -/

/-- C1: on a 401 first response, the transport parses the challenge (realm
defaulting to "AiSEG", nonce to ""), computes
`HA1 = md5(user:realm:pass)` and `HA2 = md5(method:path)` with the full
path (including any query string) that is also placed verbatim in the
header's `uri=` field, derives the response digest by the qop=auth formula
with `nc = 00000001` when the challenge says `qop=auth` and by the plain
formula otherwise, issues exactly one authenticated retry carrying that
`Authorization` header, and returns the retry's response as-is — a second
401 included. -/
theorem digestFetch_c1 (md5 : String → String) (cnonce : String)
    (fetch : Request → Response) (method path : String) (body : Option String)
    (h401 : (fetch { method := method, path := path,
                     authorization := none, body := body }).status = 401) :
    let req1 : Request := { method := method, path := path,
                            authorization := none, body := body }
    let ch := parseWWWAuth (fetch req1).wwwAuthenticate
    let realm := (jsProp ch "realm").getD "AiSEG"
    let nonce := (jsProp ch "nonce").getD ""
    let ha1 := md5 (USER ++ ":" ++ realm ++ ":" ++ PASS)
    let ha2 := md5 (method ++ ":" ++ path)
    let dg :=
      if jsProp ch "qop" = some "auth"
      then md5 (ha1 ++ ":" ++ nonce ++ ":" ++ "00000001" ++ ":" ++ cnonce ++ ":auth:" ++ ha2)
      else md5 (ha1 ++ ":" ++ nonce ++ ":" ++ ha2)
    let retry : Request := { method := method, path := path,
                             authorization := some (digestAuthHeader realm nonce path dg
                               (jsProp ch "qop") (jsProp ch "opaque") cnonce),
                             body := body }
    (digestFetch md5 cnonce fetch path method body).2 = [req1, retry] ∧
    (digestFetch md5 cnonce fetch path method body).1 = fetch retry ∧
    ((fetch retry).status = 401 →
      (digestFetch md5 cnonce fetch path method body).1.status = 401) := by
  intro req1 ch realm nonce ha1 ha2 dg retry
  have hne : ¬((fetch req1).status ≠ 401) := not_not_intro h401
  simp only [digestFetch]
  rw [if_neg hne]
  exact ⟨rfl, rfl, fun h => h⟩

/-- C1 witness: a mock appliance issuing a qop=auth challenge with an
opaque value, against a path carrying a query string. -/
theorem digestFetch_c1_witness :
    (fetchw { method := "GET", path := "/page/graph/51111?x=1",
              authorization := none, body := none }).status = 401 ∧
    (digestFetch md5w "cn" fetchw "/page/graph/51111?x=1" "GET" none).2.length = 2 := by
  have h := digestFetch_c1 md5w "cn" fetchw "GET" "/page/graph/51111?x=1" none rfl
  refine ⟨rfl, ?_⟩
  rw [h.1]
  rfl

/-! ## C3 — daily totals scrape -/

/-- C3 counterexample: a page whose span holds `1,234,567.8` — the code's
`replace(',', '')` removes only the FIRST comma, so `parseFloat` stops at
the second one and yields 1234, while the claimed "comma group separators
stripped" parse yields 1234567.8. -/
theorem parseKwh_c3_counterexample :
    parseKwh kwhTwoCommaPage = some 1234 ∧
    specParseAllCommasStripped "1,234,567.8".data = some (6172839 / 5 : ℚ) ∧
    parseKwh kwhTwoCommaPage ≠ specParseAllCommasStripped "1,234,567.8".data := by
  refine ⟨by decide, by decide, by decide⟩

/-- C3 amended: each of the four categories is scraped independently — a
failed fetch (or a page without the span) yields `null` for exactly that
category, the result object always carries all four keys (by the shape of
`Totals`), and a present span is parsed by removing the FIRST comma and
reading the leading decimal, which agrees with the claimed
separator-stripped parse for values with at most one group separator
(e.g. "1,234.56" → 1234.56) but not beyond. -/
theorem getTotals_c3_amended :
    (∀ fetchPage : Nat → Option String,
      (getTotals fetchPage).solar = (fetchPage 51111).bind (fun h => parseKwh h) ∧
      (getTotals fetchPage).consumption = (fetchPage 52111).bind (fun h => parseKwh h) ∧
      (getTotals fetchPage).purchase = (fetchPage 53111).bind (fun h => parseKwh h) ∧
      (getTotals fetchPage).sold = (fetchPage 54111).bind (fun h => parseKwh h)) ∧
    parseKwh kwhOneCommaPage = some (123456 / 100 : ℚ) ∧
    parseKwh kwhOneCommaPage = specParseAllCommasStripped "1,234.56".data ∧
    parseKwh "<div>no span here</div>" = none := by
  exact ⟨fun f => ⟨rfl, rfl, rfl, rfl⟩, by decide, by decide, by decide⟩

/-! ## C6 — circuit-list script scraping -/

/-- C6 counterexample: a page with two marker-containing script blocks.
The first block's balanced-parenthesis argument is valid JSON describing
circuit A, yet `getCircuits` returns circuit B from the second block: the
code slices from the first `(` to the LAST `)` of the block (grabbing the
trailing code too), fails to parse that, and moves on — refuting "attempts
to JSON-parse the balanced-parenthesis argument". -/
theorem getCircuits_c6_counterexample :
    getCircuits c6Html = [{ id := "2", name := JsVal.str "B" }] ∧
    extractScripts c6Html = [c6Block1, c6Block2] ∧
    strIncludes c6Block1 CIRCUIT_MARKER = true ∧
    ((specBalancedArg c6Block1).bind (fun t => jsonParse (jsTrim t))).bind
      circuitsFromJson = some [{ id := "1", name := JsVal.str "A" }] ∧
    ¬getCircuits c6Html = [{ id := "1", name := JsVal.str "A" }] := by
  have h1 : getCircuits c6Html = [{ id := "2", name := JsVal.str "B" }] := rfl
  refine ⟨h1, rfl, rfl, rfl, ?_⟩
  intro h
  rw [h1] at h
  have h2 := congrArg
    (fun l : List Circuit => (l.headD { id := "", name := JsVal.null }).id) h
  exact absurd h2 (by decide)

/-- C6 amended: the parser scans script blocks in document order and
considers only marker-containing blocks; for each candidate it attempts to
JSON-parse the text between the block's FIRST opening parenthesis and its
LAST closing parenthesis (not the balanced argument); a failed attempt
moves on to the next candidate; the first block whose attempt succeeds
yields its circuits filtered to button-type code '1'; and when no candidate
succeeds the result is the empty list — the function is total, never
raising. -/
theorem getCircuits_c6_amended :
    (∀ html, (∀ s ∈ extractScripts html,
        strIncludes s CIRCUIT_MARKER = true → tryCircuitBlock s = none) →
      getCircuits html = []) ∧
    (∀ s rest cs, strIncludes s CIRCUIT_MARKER = true → tryCircuitBlock s = some cs →
      getCircuitsFromScripts (s :: rest) = cs) ∧
    (∀ s rest, strIncludes s CIRCUIT_MARKER = false ∨ tryCircuitBlock s = none →
      getCircuitsFromScripts (s :: rest) = getCircuitsFromScripts rest) ∧
    (∀ item items, strictEqStr (getField item "strBtnType") "1" = false →
      item ≠ JsVal.null → circuitsOfItems (item :: items) = circuitsOfItems items) ∧
    getCircuits c6Html = [{ id := "2", name := JsVal.str "B" }] := by
  refine ⟨?_, ?_, ?_, ?_, rfl⟩
  · intro html h
    exact getCircuitsFromScripts_nil (extractScripts html) h
  · intro s rest cs hm hb
    simp [getCircuitsFromScripts, hm, hb]
  · exact getCircuitsFromScripts_skip
  · intro item items hfilter hnn
    cases item with
    | null => exact absurd rfl hnn
    | undef => cases hrec : circuitsOfItems items <;> simp [circuitsOfItems, hfilter, hrec]
    | bool b => cases hrec : circuitsOfItems items <;> simp [circuitsOfItems, hfilter, hrec]
    | num q => cases hrec : circuitsOfItems items <;> simp [circuitsOfItems, hfilter, hrec]
    | str t => cases hrec : circuitsOfItems items <;> simp [circuitsOfItems, hfilter, hrec]
    | arr xs => cases hrec : circuitsOfItems items <;> simp [circuitsOfItems, hfilter, hrec]
    | obj kvs => cases hrec : circuitsOfItems items <;> simp [circuitsOfItems, hfilter, hrec]

/-- C6 witness: the failing first block of the fixture is skipped and the
scan continues with the remaining blocks. -/
theorem getCircuits_c6_witness :
    strIncludes c6Block1 CIRCUIT_MARKER = true ∧
    tryCircuitBlock c6Block1 = none ∧
    getCircuitsFromScripts [c6Block1, c6Block2] = getCircuitsFromScripts [c6Block2] := by
  have h := getCircuits_c6_amended.2.2.1 c6Block1 [c6Block2] (Or.inr rfl)
  exact ⟨rfl, rfl, h⟩

/-! ## C9 — realtime numeric defaults -/

/-- C9 counterexample: with `best1 = 1` and no `u_d_1_capacity`, the
visible top-consumer entry carries `undefined` watts (copied verbatim, not
defaulted to 0); and a non-numeric string in `g_d_1_capacity` propagates
into `solar_w` unchanged — refuting "every numeric field … defaults to 0
when absent or unparseable" and "no null or non-numeric value is
propagated". -/
theorem getRealtime_c9_counterexample :
    ((getRealtime c9PayloadMissingWatts).elim ([] : List TopEntry)
        RealtimeResult.top).map TopEntry.watts = [JsVal.undef] ∧
    ¬JsVal.undef = JsVal.num 0 ∧
    (getRealtime c9PayloadStringSolar).elim JsVal.null RealtimeResult.solar_w =
      JsVal.str "-" := by
  refine ⟨rfl, ?_, rfl⟩
  intro h
  exact JsVal.noConfusion h

/-- C9 amended: `gen_kw` and `use_kw` (the `parseFloat(...) || 0` fields)
are always rationals and fall back to 0 whenever the source field is absent
or unparseable; `solar_w` and `enefarm_w` (the `?? 0` fields) default to 0
only when the source field is absent or null, and propagate any other value
— including non-numeric strings — unchanged; top-consumer watts are copied
verbatim from the corresponding source fields with no defaulting at all. -/
theorem getRealtime_c9_amended (d : JsVal) (res : RealtimeResult)
    (hres : getRealtime d = some res) :
    (jsParseFloat (getField d "g_capacity") = none → res.gen_kw = 0) ∧
    (jsParseFloat (getField d "u_capacity") = none → res.use_kw = 0) ∧
    ((getField d "g_d_1_capacity" = JsVal.undef ∨ getField d "g_d_1_capacity" = JsVal.null) →
      res.solar_w = JsVal.num 0) ∧
    ((getField d "g_d_2_capacity" = JsVal.undef ∨ getField d "g_d_2_capacity" = JsVal.null) →
      res.enefarm_w = JsVal.num 0) ∧
    (∀ s, getField d "g_d_1_capacity" = JsVal.str s → res.solar_w = JsVal.str s) ∧
    (∀ e ∈ res.top, e.watts = getField d "u_d_1_capacity" ∨
      e.watts = getField d "u_d_2_capacity" ∨ e.watts = getField d "u_d_3_capacity") := by
  have hd := getRealtime_eq_mkRealtime d res hres
  subst hd
  refine ⟨?_, ?_, ?_, ?_, ?_, ?_⟩
  · intro h
    simp [mkRealtime, h]
  · intro h
    simp [mkRealtime, h]
  · intro h
    rcases h with h | h <;> simp [mkRealtime, nullish, h]
  · intro h
    rcases h with h | h <;> simp [mkRealtime, nullish, h]
  · intro s h
    simp [mkRealtime, nullish, h]
  · intro e he
    simp only [mkRealtime, List.mem_filter] at he
    obtain ⟨he, -⟩ := he
    simp only [List.mem_cons, List.not_mem_nil, or_false] at he
    rcases he with h | h | h <;> subst h <;> simp

/-- C9 witness: a payload with an unparseable `g_capacity` and a visible
second top consumer whose watts come through verbatim. -/
theorem getRealtime_c9_witness :
    (getRealtime c9WitnessPayload).elim (1 : ℚ) RealtimeResult.gen_kw = 0 := by
  obtain ⟨res, hres⟩ : ∃ r, getRealtime c9WitnessPayload = some r := ⟨_, rfl⟩
  have h := getRealtime_c9_amended c9WitnessPayload res hres
  rw [hres]
  exact h.1 rfl

end

end Aiseg
